import Mathlib

/-
Verification development for the yt-transcript-downloader repository.

Part 1 embeds the URL validator of src/frontend/src/lib/api-client.ts
(function isValidYouTubeURL).  Part 2 embeds the response wrapper
fetchTranscript of the same file together with the TranscriptResponse
shape of src/frontend/src/types/index.ts.  Part 3 models the extraction
core (URL resolver, transport session with retry, page scraper, language
fallback controller, response normalizer and facade); that core is a
Python library that is documented but not present under src/, so those
definitions are modelled from the specification text and are marked as
such in their doc comments.
-/

/-! Part 1: the frontend URL validator. -/

/-- Characters that terminate the captured video id run in the two
regular expressions of isValidYouTubeURL; the character class used by
the source is the negated class of ampersand, newline, question mark
and hash. -/
def isStopChar (c : Char) : Bool :=
  c == '&' || c == '\n' || c == '?' || c == '#'

/-- Negation of isStopChar, the class actually captured by the regex. -/
def notStop (c : Char) : Bool := !(isStopChar c)

/-- Literal pattern match at the head of a character list; on success
returns the remainder after the pattern.  This is the building block
for the regex literals of the source. -/
def matchLit : List Char → List Char → Option (List Char)
  | [], s => some s
  | _ :: _, [] => none
  | p :: ps, c :: cs => if p = c then matchLit ps cs else none

/-- Attempt, at one fixed position, each regex alternative in order:
the alternative succeeds when its literal part matches and the
following capture group, a nonempty run of characters outside the
terminator class, is nonempty; otherwise the next alternative is tried
at the same position, mirroring regex backtracking. -/
def tryPatsAt : List (List Char) → List Char → Option (List Char)
  | [], _ => none
  | p :: ps, s =>
    match matchLit p s with
    | some rest =>
      let cap := rest.takeWhile notStop
      if cap = [] then tryPatsAt ps s else some cap
    | none => tryPatsAt ps s

/-- Scan for the first position at which some alternative succeeds,
returning its capture; this models JavaScript String.match with a
single capturing group over literal alternatives. -/
def findCapture (pats : List (List Char)) : List Char → Option (List Char)
  | [] => none
  | c :: rest =>
    match tryPatsAt pats (c :: rest) with
    | some cap => some cap
    | none => findCapture pats rest

/-- Literal part of the first alternative of the first regex of the
source: youtube.com/watch?v= . -/
def patWatch : List Char := "youtube.com/watch?v=".data

/-- Literal part of the second alternative of the first regex of the
source: youtu.be/ . -/
def patShort : List Char := "youtu.be/".data

/-- Literal part of the second regex of the source:
youtube.com/embed/ . -/
def patEmbed : List Char := "youtube.com/embed/".data

/-- The video id capture computed by isValidYouTubeURL: the first regex
(watch form or short form) is tried on the whole url string, and if it
does not match anywhere the embed regex is tried, exactly as in the
source expression videoIdMatch. -/
def extractedVideoId (url : String) : Option (List Char) :=
  match findCapture [patWatch, patShort] url.data with
  | some cap => some cap
  | none => findCapture [patEmbed] url.data

/-- Split a character list around the first occurrence of a literal
pattern, returning the part before it and the part after it. -/
def splitAfter (pat : List Char) : List Char → Option (List Char × List Char)
  | [] => none
  | c :: rest =>
    match matchLit pat (c :: rest) with
    | some after => some ([], after)
    | none =>
      match splitAfter pat rest with
      | some (b, a) => some (c :: b, a)
      | none => none

/-- Scheme characters accepted after the first letter of a URL scheme. -/
def isSchemeChar (c : Char) : Bool :=
  c.isAlpha || c.isDigit || c == '+' || c == '-' || c == '.'

/-- A valid URL scheme: a letter followed by scheme characters. -/
def validScheme (s : List Char) : Bool :=
  match s with
  | [] => false
  | c :: cs => c.isAlpha && cs.all isSchemeChar

/-- Characters ending the authority component of a URL. -/
def isAuthEnd (c : Char) : Bool := c == '/' || c == '?' || c == '#'

/-- Drop everything up to and including the last at sign, removing the
userinfo part of a URL authority. -/
def afterLastAt (l : List Char) : List Char :=
  (l.reverse.takeWhile (fun c => !(c == '@'))).reverse

/-- Model of the hostname computed by the JavaScript constructor
new URL(url) as used by the source: the source only reads the hostname
property and treats a constructor exception as failure.  The model
accepts strings of the shape scheme://authority... and returns the
lowercased host of the authority (userinfo and port removed); every
other string maps to none, standing for the thrown exception.  This is
the behavior of the WHATWG parser on the scheme://host URL shapes the
validator is concerned with. -/
def parseHostname (url : String) : Option (List Char) :=
  match splitAfter "://".data url.data with
  | none => none
  | some (scheme, rest) =>
    if validScheme scheme then
      let auth := rest.takeWhile (fun c => !(isAuthEnd c))
      let host := (afterLastAt auth).takeWhile (fun c => !(c == ':'))
      if host.isEmpty then none else some (host.map Char.toLower)
    else none

/-- Substring containment, the JavaScript String.includes used on the
hostname by the source. -/
def containsSub (s : List Char) (pat : List Char) : Bool :=
  match s with
  | [] => pat.isEmpty
  | _ :: rest =>
    match matchLit pat s with
    | some _ => true
    | none => containsSub rest pat

/-- The host recognition step of isValidYouTubeURL: the URL must parse
and its hostname must contain youtube.com, youtu.be or youtube.be as a
substring; a parse failure is caught and reported as false. -/
def recognizedHostB (url : String) : Bool :=
  match parseHostname url with
  | none => false
  | some h =>
    containsSub h "youtube.com".data || containsSub h "youtu.be".data ||
      containsSub h "youtube.be".data

/-- Embedding of isValidYouTubeURL from
src/frontend/src/lib/api-client.ts: parse the URL and check the host
(returning false on a parse exception or an unrecognized host), then
match the two video id regexes against the whole url string and accept
exactly when the captured group has length 11. -/
def isValidYouTubeURL (url : String) : Bool :=
  if recognizedHostB url then
    match extractedVideoId url with
    | some cap => cap.length == 11
    | none => false
  else false

/-- Modelled from the spec: the platform fixed-length identifier
alphabet (ASCII letters, digits, dash and underscore), used only to
state the invariant claims; the frontend source contains no such
alphabet check. -/
def isIdAlphabet (c : Char) : Bool :=
  c.isAlpha || c.isDigit || c == '-' || c == '_'

/-- Characters allowed in the id-and-query tail of a URL for the
universal acceptance statement: identifier characters plus the
ampersand, equals sign and question mark that appear in trailing query
parameters.  The class excludes dot and slash, which both occur in
every pattern literal, which is what makes the scan below the matched
position fail. -/
def tailCharB (c : Char) : Bool :=
  isIdAlphabet c || c == '&' || c == '=' || c == '?'

/-- URL of the watch form around a given id and trailing tail, as in
the accepted-forms claim. -/
def watchURL (id q : List Char) : String :=
  String.mk ("https://www.youtube.com/watch?v=".data ++ id ++ q)

/-- URL of the short-link form around a given id and trailing tail. -/
def shortURL (id q : List Char) : String :=
  String.mk ("https://youtu.be/".data ++ id ++ q)

/-- URL of the embed form around a given id and trailing tail. -/
def embedURL (id q : List Char) : String :=
  String.mk ("https://www.youtube.com/embed/".data ++ id ++ q)

/-! Part 2: the frontend response wrapper fetchTranscript. -/

/-- TranscriptSegment from src/frontend/src/types/index.ts: sequential
integer id, text, optional start and duration.  The numeric type of
the timing fields is abstracted to Nat; no code under verification
computes with their values. -/
structure TranscriptSegment where
  id : Nat
  text : String
  start : Option Nat
  duration : Option Nat
deriving DecidableEq

/-- TranscriptResponse from src/frontend/src/types/index.ts: the JSON
shape exchanged with the backend, all payload fields optional. -/
structure TranscriptResponse where
  success : Bool
  text : Option String
  segments : Option (List TranscriptSegment)
  language : Option String
  error : Option String
deriving DecidableEq

/-- Outcome of the underlying fetch call as observed by
fetchTranscript: the promise rejects with an error message, or a
response arrives with an ok flag and a body that either parses as JSON
(modelled directly as the TranscriptResponse shaped value it decodes
to) or fails to parse, making the json() call throw with a message. -/
inductive FetchOutcome where
  | rejected (message : String)
  | response (ok : Bool) (body : Except String TranscriptResponse)

/-- Embedding of fetchTranscript from
src/frontend/src/lib/api-client.ts.  A rejected fetch or a body whose
json() call throws lands in the catch block, which returns success
false and a Network error message; a non-2xx response with a JSON body
returns success false with the error field of that body when it is a
nonempty string (the JavaScript or-else on a falsy value) and the
fallback text otherwise; a 2xx response with a JSON body is returned
unchanged. -/
def fetchTranscript : FetchOutcome → TranscriptResponse
  | .rejected msg =>
    ⟨false, none, none, none, some ("Network error: " ++ msg)⟩
  | .response _ (.error msg) =>
    ⟨false, none, none, none, some ("Network error: " ++ msg)⟩
  | .response false (.ok j) =>
    ⟨false, none, none, none,
      some (match j.error with
        | some s => if s = "" then "Failed to fetch transcript" else s
        | none => "Failed to fetch transcript")⟩
  | .response true (.ok j) => j

/-! Part 3: the extraction core.  The core is a Python library whose
code is documented under src/ but not itself present there, so the
definitions of this part are modelled from the specification text. -/

/-- Modelled from the spec: the failure taxonomy of section 7. -/
inductive FailureKind where
  | invalidURL
  | transportFailure
  | pageStructureChanged
  | noCaptionsAvailable
  | parseFailure
  | cancelled
  | internalError
deriving DecidableEq

/-- Modelled from the spec: a failure descriptor carrying one kind and
a human readable message. -/
structure ExtractionFailure where
  kind : FailureKind
  message : String
deriving DecidableEq

/-- Modelled from the spec: the normalized success value of the
facade. -/
structure ExtractorResult where
  text : String
  segments : List TranscriptSegment
  language : Option String
deriving DecidableEq

/-- Modelled from the spec: one raw caption event of the platform
payload: text fragments plus optional timing. -/
structure RawCaptionEvent where
  fragments : List String
  start : Option Nat
  duration : Option Nat
deriving DecidableEq

/-- Modelled from the spec: result of one attempt of the underlying
HTTP transport: a response with status code and body, a connection
error, or a read timeout. -/
inductive AttemptResult where
  | ok (status : Nat) (body : List Char)
  | connError
  | readTimeout
deriving DecidableEq

/-- Modelled from the spec: the retry condition of the Transport
Session: connection errors, read timeouts and HTTP 5xx or 429
responses are retried. -/
def retriableB : AttemptResult → Bool
  | .connError => true
  | .readTimeout => true
  | .ok s _ => if (500 ≤ s ∧ s < 600) ∨ s = 429 then true else false

/-- Modelled from the spec: whether the caller cancellation signal is
observed at network operation index i.  Network operations are
numbered from 0 in the order they start within one extract call; a
signal value of some k aborts the operation with index k and every
later one; none never fires. -/
def cancelFires (cancelAt : Option Nat) (i : Nat) : Bool :=
  match cancelAt with
  | none => false
  | some k => k ≤ i

/-- Modelled from the spec: result of the transport retry loop: either
the cancellation signal aborted it after made attempts, or it finished
with the last attempt result, the total number of attempts made and
the backoff delays slept between attempts. -/
inductive RetryResult where
  | cancelled (made : Nat)
  | done (r : AttemptResult) (made : Nat) (delays : List Nat)
deriving DecidableEq

/-- Modelled from the spec: the retry loop of the Transport Session:
up to fuel further attempts, retrying while the attempt result is
retriable, sleeping an exponentially doubling backoff delay of base
times 2 to the number of attempts already made, and checking the
cancellation signal before each attempt.  The collaborator t gives the
result of attempt number i. -/
def retryRun (t : Nat → AttemptResult) (c : Option Nat) (base : Nat) :
    Nat → Nat → RetryResult
  | made, 0 => .done .connError made []
  | made, fuel + 1 =>
    if cancelFires c made then .cancelled made
    else
      let r := t made
      if retriableB r = true ∧ fuel ≠ 0 then
        match retryRun t c base (made + 1) fuel with
        | .cancelled m => .cancelled m
        | .done r2 m ds => .done r2 m (base * 2 ^ made :: ds)
      else .done r (made + 1) []

/-- Modelled from the spec: a full transport request with no
cancellation: at most 3 attempts total. -/
def transportRun (t : Nat → AttemptResult) (base : Nat) : RetryResult :=
  retryRun t none base 0 3

/-- Modelled from the spec: outcome of one Transcript Endpoint Client
invocation for one language candidate (its internal transport retries
are folded into the outcome). -/
inductive EndpointOutcome where
  | success (events : List RawCaptionEvent)
  | languageUnavailable
  | transportFailure (message : String)
  | parseFailure (message : String)
deriving DecidableEq

/-- Modelled from the spec and the README under src: the fixed default
language fallback chain de, de-DE, en, en-US, en-GB; the final attempt
with no language constraint is issued by the controller itself. -/
def defaultChain : List String := ["de", "de-DE", "en", "en-US", "en-GB"]

/-- Modelled from the spec: a caller supplied preferred language is
tried first, followed by the same default chain. -/
def candidates : Option String → List String
  | none => defaultChain
  | some l => l :: defaultChain

/-- Modelled from the spec: the text of one caption event, its
fragments joined with no separator. -/
def eventText (e : RawCaptionEvent) : String := String.join e.fragments

/-- Modelled from the spec: an event is emitted exactly when it has at
least one nonempty text fragment. -/
def eventHasText (e : RawCaptionEvent) : Bool :=
  e.fragments.any (fun f => !(f == ""))

/-- Modelled from the spec: the Response Normalizer enumeration:
events in delivery order, a segment with the next dense id for each
event with text, skipped events do not consume an id. -/
def normalizeFrom : List RawCaptionEvent → Nat → List TranscriptSegment
  | [], _ => []
  | e :: rest, n =>
    if eventHasText e then
      ⟨n, eventText e, e.start, e.duration⟩ :: normalizeFrom rest (n + 1)
    else normalizeFrom rest n

/-- Modelled from the spec: normalization starting at id 0. -/
def normalizeEvents (evs : List RawCaptionEvent) : List TranscriptSegment :=
  normalizeFrom evs 0

/-- Modelled from the spec: the plain text output, the emitted segment
texts joined with single spaces. -/
def transcriptText (segs : List TranscriptSegment) : String :=
  String.intercalate " " (segs.map (fun s => s.text))

/-- Modelled from the spec: the full normalized result for the
language that succeeded. -/
def normalizeResult (evs : List RawCaptionEvent) (lang : Option String) :
    ExtractorResult :=
  ⟨transcriptText (normalizeEvents evs), normalizeEvents evs, lang⟩

/-- Modelled from the spec: outcome of the Language Fallback
Controller. -/
inductive FallbackResult where
  | ok (events : List RawCaptionEvent) (language : Option String)
  | cancelled
  | fail (f : ExtractionFailure)
deriving DecidableEq

/-- Modelled from the spec: the fallback state machine: for each
candidate in order call the endpoint (one network operation each, the
cancellation signal checked first); on success stop with the candidate
language; on language-unavailable advance; on transport or parse
failure fail the whole extraction immediately; after the last explicit
candidate issue one final attempt with no language constraint, failing
with no-transcript-available when it yields no usable events.  Returns
the outcome, the language arguments attempted, and the next network
operation index. -/
def fallbackRun (e : Option String → EndpointOutcome) (c : Option Nat) :
    List String → Nat → FallbackResult × List (Option String) × Nat
  | cands, ops =>
    if cancelFires c ops then (.cancelled, [], ops)
    else
      match cands with
      | [] =>
        match e none with
        | .success evs =>
          if evs.any eventHasText then (.ok evs none, [none], ops + 1)
          else (.fail ⟨.noCaptionsAvailable, "no transcript available"⟩, [none], ops + 1)
        | .languageUnavailable =>
          (.fail ⟨.noCaptionsAvailable, "no transcript available"⟩, [none], ops + 1)
        | .transportFailure m => (.fail ⟨.transportFailure, m⟩, [none], ops + 1)
        | .parseFailure m => (.fail ⟨.parseFailure, m⟩, [none], ops + 1)
      | l :: ls =>
        match e (some l) with
        | .success evs => (.ok evs (some l), [some l], ops + 1)
        | .languageUnavailable =>
          match fallbackRun e c ls (ops + 1) with
          | (r, ts, ops2) => (r, some l :: ts, ops2)
        | .transportFailure m => (.fail ⟨.transportFailure, m⟩, [some l], ops + 1)
        | .parseFailure m => (.fail ⟨.parseFailure, m⟩, [some l], ops + 1)

/-- Modelled from the spec: the known JavaScript variable marker that
precedes the quoted access key in the page source; the concrete marker
text is irrelevant to the claims, a representative value is used. -/
def apiKeyMarker : List Char := "\"INNERTUBE_API_KEY\":\"".data

/-- Modelled from the spec: the known key name whose quoted value is
the transcript parameter blob. -/
def paramsMarker : List Char := "\"params\":\"".data

/-- Modelled from the spec: capture of a quoted string immediately
following the first occurrence of a marker: the characters after the
marker up to the next double quote. -/
def captureQuoted (marker : List Char) : List Char → Option (List Char)
  | [] => none
  | c :: rest =>
    match matchLit marker (c :: rest) with
    | some after => some (after.takeWhile (fun d => !(d == '\"')))
    | none => captureQuoted marker rest

/-- Modelled from the spec: the Page Scraper applied to a fetched HTML
body: a missing access key is the hard page-structure failure, a
missing parameter blob is the normal no-captions outcome. -/
def scrapePage (html : List Char) :
    Except ExtractionFailure (List Char × List Char) :=
  match captureQuoted apiKeyMarker html with
  | none => .error ⟨.pageStructureChanged, "could not extract API key from page"⟩
  | some key =>
    match captureQuoted paramsMarker html with
    | none => .error ⟨.noCaptionsAvailable, "no captions available"⟩
    | some ps => .ok (key, ps)

/-- Modelled from the spec: the core URL Resolver (the Python library
is not under src/): it recognizes the same three URL forms with the
same captured-run rule as the frontend validator and produces the
11 character identifier. -/
def resolveVideoId (url : String) : Option (List Char) :=
  if recognizedHostB url then
    match extractedVideoId url with
    | some cap => if cap.length = 11 then some cap else none
    | none => none
  else none

/-- Modelled from the spec: the injected collaborators of one extract
call: the transport function for the watch page fetch (attempt number
to attempt result), the endpoint client (access key, transcript params
and language candidate to outcome), and the backoff base delay. -/
structure Collab where
  pageTransport : Nat → AttemptResult
  endpoint : List Char → List Char → Option String → EndpointOutcome
  baseDelay : Nat

/-- Modelled from the spec: observable trace of one extract call: page
fetch attempts made, backoff delays slept, and the language arguments
of the endpoint calls issued. -/
structure Trace where
  pageAttempts : Nat
  pageDelays : List Nat
  endpointLangs : List (Option String)
deriving DecidableEq

/-- Modelled from the spec: the Extraction Facade: resolver, page
fetch through the transport session with retries, scraper, language
fallback controller, normalizer; the first failing stage
short-circuits; the cancellation signal is observed before each
network operation.  Returns the outcome together with the trace. -/
def extractT (cfg : Collab) (url : String) (pref : Option String)
    (cancelAt : Option Nat) :
    Except ExtractionFailure ExtractorResult × Trace :=
  match resolveVideoId url with
  | none => (.error ⟨.invalidURL, "not a supported link"⟩, ⟨0, [], []⟩)
  | some _ =>
    match retryRun cfg.pageTransport cancelAt cfg.baseDelay 0 3 with
    | .cancelled m => (.error ⟨.cancelled, "cancelled"⟩, ⟨m, [], []⟩)
    | .done r m ds =>
      match r with
      | .ok s body =>
        if 200 ≤ s ∧ s < 300 then
          match scrapePage body with
          | .error f => (.error f, ⟨m, ds, []⟩)
          | .ok (key, ps) =>
            match fallbackRun (cfg.endpoint key ps) cancelAt (candidates pref) m with
            | (.cancelled, ts, _) => (.error ⟨.cancelled, "cancelled"⟩, ⟨m, ds, ts⟩)
            | (.ok evs lang, ts, _) => (.ok (normalizeResult evs lang), ⟨m, ds, ts⟩)
            | (.fail f, ts, _) => (.error f, ⟨m, ds, ts⟩)
        else (.error ⟨.transportFailure, "page fetch failed"⟩, ⟨m, ds, []⟩)
      | .connError =>
        (.error ⟨.transportFailure, "connection error: retries exhausted"⟩, ⟨m, ds, []⟩)
      | .readTimeout =>
        (.error ⟨.transportFailure, "read timeout: retries exhausted"⟩, ⟨m, ds, []⟩)

/-- Modelled from the spec: the public extract operation, the outcome
component of extractT. -/
def extract (cfg : Collab) (url : String) (pref : Option String)
    (cancelAt : Option Nat) : Except ExtractionFailure ExtractorResult :=
  (extractT cfg url pref cancelAt).1

/-- Simulated page body containing a valid access key and transcript
params, used by the end-to-end scenarios. -/
def simHtml : List Char :=
  "var cfg = \"INNERTUBE_API_KEY\":\"k123\", \"params\":\"p456\";".data

/-- Simulated endpoint reporting language-unavailable for every
language except en, for which it returns the three event payload of
the end-to-end scenario. -/
def simEndpoint : List Char → List Char → Option String → EndpointOutcome :=
  fun _ _ lang =>
    if lang = some "en" then
      .success [⟨["Hello"], none, none⟩, ⟨[""], none, none⟩, ⟨["world"], none, none⟩]
    else .languageUnavailable

/-- Collaborators of the end-to-end scenario: page fetch succeeds at
once with the simulated body. -/
def simCollab : Collab :=
  ⟨fun _ => .ok 200 simHtml, simEndpoint, 500⟩

/-- Transport collaborator failing twice with 503 and succeeding on
the third attempt. -/
def sim503 : Nat → AttemptResult :=
  fun i => if i < 2 then .ok 503 [] else .ok 200 simHtml

/-- Collaborators of the retry scenario. -/
def sim503Collab : Collab := ⟨sim503, simEndpoint, 500⟩

/-! Helper lemmas. -/

theorem data_mk (l : List Char) : (String.mk l).data = l := rfl

theorem matchLit_self_app (p l : List Char) : matchLit p (p ++ l) = some l := by
  induction p with
  | nil => rfl
  | cons c cs ih => simp [matchLit, ih]

theorem matchLit_eq_append (p : List Char) :
    ∀ s r : List Char, matchLit p s = some r → s = p ++ r := by
  induction p with
  | nil => intro s r h; simp [matchLit] at h; simp [h]
  | cons c cs ih =>
    intro s r h
    cases s with
    | nil => simp [matchLit] at h
    | cons d ds =>
      simp only [matchLit] at h
      by_cases hcd : c = d
      · rw [if_pos hcd] at h
        subst hcd
        simp [List.cons_append, ih ds r h]
      · rw [if_neg hcd] at h
        cases h

theorem matchLit_mem (p s r : List Char) (h : matchLit p s = some r) :
    ∀ c ∈ p, c ∈ s := by
  intro c hc
  rw [matchLit_eq_append p s r h]
  exact List.mem_append_left r hc

theorem matchLit_none_missing (p s : List Char) (q : Char → Bool) (c : Char)
    (hcp : c ∈ p) (hcq : q c = false) (hs : s.all q = true) :
    matchLit p s = none := by
  cases h : matchLit p s with
  | none => rfl
  | some r =>
    have hcs : c ∈ s := matchLit_mem p s r h c hcp
    have htrue := List.all_eq_true.mp hs c hcs
    rw [hcq] at htrue
    cases htrue

theorem tryPatsAt_none (pats : List (List Char)) (s : List Char)
    (h : ∀ p ∈ pats, matchLit p s = none) : tryPatsAt pats s = none := by
  induction pats with
  | nil => rfl
  | cons p ps ih =>
    have h0 : matchLit p s = none := h p (by simp)
    have h1 : ∀ p2 ∈ ps, matchLit p2 s = none := fun p2 hp2 => h p2 (by simp [hp2])
    simp [tryPatsAt, h0]
    exact ih h1

theorem findCapture_none_of_all (pats : List (List Char)) (q : Char → Bool)
    (hp : ∀ p ∈ pats, ∃ c ∈ p, q c = false) :
    ∀ s : List Char, s.all q = true → findCapture pats s = none := by
  intro s
  induction s with
  | nil => intro _; rfl
  | cons a t ih =>
    intro hs
    simp only [List.all_cons, Bool.and_eq_true] at hs
    have hnone : tryPatsAt pats (a :: t) = none := by
      apply tryPatsAt_none
      intro p hmem
      obtain ⟨c, hcp, hcq⟩ := hp p hmem
      apply matchLit_none_missing p (a :: t) q c hcp hcq
      simp [List.all_cons, hs.1, hs.2]
    simp [findCapture, hnone]
    exact ih hs.2

theorem takeWhile_append_all (q : Char → Bool) :
    ∀ l r : List Char, l.all q = true →
      (l ++ r).takeWhile q = l ++ r.takeWhile q := by
  intro l r
  induction l with
  | nil => intro _; simp
  | cons c cs ih =>
    intro h
    simp only [List.all_cons, Bool.and_eq_true] at h
    simp [List.takeWhile_cons, h.1, ih h.2]

theorem takeWhile_stop_head (q : Char → Bool) (c : Char) (r : List Char)
    (h : q c = false) : (c :: r).takeWhile q = [] := by
  simp [List.takeWhile_cons, h]

theorem all_takeWhile_self (q : Char → Bool) :
    ∀ l : List Char, (l.takeWhile q).all q = true := by
  intro l
  induction l with
  | nil => rfl
  | cons c cs ih =>
    cases h : q c with
    | false => simp [List.takeWhile_cons, h]
    | true => simp [List.takeWhile_cons, h, ih]

theorem dropWhile_head_false (q : Char → Bool) :
    ∀ (l : List Char) (c : Char) (cs : List Char),
      l.dropWhile q = c :: cs → q c = false := by
  intro l
  induction l with
  | nil => intro c cs h; simp [List.dropWhile] at h
  | cons a as ih =>
    intro c cs h
    rw [List.dropWhile_cons] at h
    by_cases ha : q a = true
    · simp [ha] at h; exact ih c cs h
    · simp [ha] at h
      rw [← h.1]
      simp at ha
      exact ha

theorem idAlphabet_notStop (c : Char) (h : isIdAlphabet c = true) :
    notStop c = true := by
  by_cases h1 : c = '&'
  · subst h1; exact absurd h (by decide)
  by_cases h2 : c = '\n'
  · subst h2; exact absurd h (by decide)
  by_cases h3 : c = '?'
  · subst h3; exact absurd h (by decide)
  by_cases h4 : c = '#'
  · subst h4; exact absurd h (by decide)
  simp [notStop, isStopChar, beq_iff_eq, h1, h2, h3, h4]

theorem idAlphabet_tailChar (c : Char) (h : isIdAlphabet c = true) :
    tailCharB c = true := by simp [tailCharB, h]

theorem all_of_all_imp (p q : Char → Bool)
    (himp : ∀ c, p c = true → q c = true) :
    ∀ l : List Char, l.all p = true → l.all q = true := by
  intro l hl
  rw [List.all_eq_true] at hl ⊢
  exact fun x hx => himp x (hl x hx)

theorem takeWhile_id_tail (id q : List Char)
    (hid : id.all notStop = true)
    (hq : q = [] ∨ ∃ d ds, q = d :: ds ∧ isStopChar d = true) :
    (id ++ q).takeWhile notStop = id := by
  rw [takeWhile_append_all notStop id q hid]
  rcases hq with h | ⟨d, ds, rfl, hd⟩
  · simp [h]
  · rw [takeWhile_stop_head notStop d ds (by simp [notStop, hd])]
    simp

theorem scanWatchHit (id q : List Char) (hne : ¬(id = []))
    (htw : (id ++ q).takeWhile notStop = id) :
    findCapture [patWatch, patShort]
      ("https://www.youtube.com/watch?v=".data ++ (id ++ q)) = some id := by
  simp [findCapture, tryPatsAt, matchLit, patWatch, patShort, htw, hne]

theorem scanShortHit (id q : List Char) (hne : ¬(id = []))
    (htw : (id ++ q).takeWhile notStop = id) :
    findCapture [patWatch, patShort]
      ("https://youtu.be/".data ++ (id ++ q)) = some id := by
  simp [findCapture, tryPatsAt, matchLit, patWatch, patShort, htw, hne]

theorem scanEmbedSkip (t : List Char) (ht : t.all tailCharB = true) :
    findCapture [patWatch, patShort]
      ("https://www.youtube.com/embed/".data ++ t) = none := by
  have base : findCapture [patWatch, patShort] t = none :=
    findCapture_none_of_all [patWatch, patShort] tailCharB (by decide) t ht
  simp [findCapture, tryPatsAt, matchLit, patWatch, patShort]
  exact base

theorem scanEmbedHit (id q : List Char) (hne : ¬(id = []))
    (htw : (id ++ q).takeWhile notStop = id) :
    findCapture [patEmbed]
      ("https://www.youtube.com/embed/".data ++ (id ++ q)) = some id := by
  simp [findCapture, tryPatsAt, matchLit, patEmbed, htw, hne]

theorem hostWatchOk (id q : List Char) :
    recognizedHostB (watchURL id q) = true := rfl

theorem hostShortOk (id q : List Char) :
    recognizedHostB (shortURL id q) = true := rfl

theorem hostEmbedOk (id q : List Char) :
    recognizedHostB (embedURL id q) = true := rfl

/-- C2: for every 11 character identifier over the platform identifier
alphabet and every trailing tail that is either empty or a query or
fragment suffix (starting with a terminator character and made of tail
characters), the URL Resolver accepts the watch, short-link and embed
forms and captures the same identifier from each of them. -/
theorem c2_url_forms (id q : List Char)
    (hlen : id.length = 11)
    (hid : id.all isIdAlphabet = true)
    (hq : q.all tailCharB = true)
    (hq0 : q = [] ∨ ∃ d ds, q = d :: ds ∧ isStopChar d = true) :
    (isValidYouTubeURL (watchURL id q) = true ∧
      extractedVideoId (watchURL id q) = some id) ∧
    (isValidYouTubeURL (shortURL id q) = true ∧
      extractedVideoId (shortURL id q) = some id) ∧
    (isValidYouTubeURL (embedURL id q) = true ∧
      extractedVideoId (embedURL id q) = some id) := by
  have hne : ¬(id = []) := by
    intro h; rw [h] at hlen; simp at hlen
  have hns : id.all notStop = true := all_of_all_imp _ _ idAlphabet_notStop id hid
  have htw : (id ++ q).takeWhile notStop = id := takeWhile_id_tail id q hns hq0
  have hall : (id ++ q).all tailCharB = true := by
    rw [List.all_append]
    simp [all_of_all_imp _ _ idAlphabet_tailChar id hid, hq]
  have ew : extractedVideoId (watchURL id q) = some id := by
    unfold extractedVideoId watchURL
    rw [data_mk, List.append_assoc, scanWatchHit id q hne htw]
  have es : extractedVideoId (shortURL id q) = some id := by
    unfold extractedVideoId shortURL
    rw [data_mk, List.append_assoc, scanShortHit id q hne htw]
  have ee : extractedVideoId (embedURL id q) = some id := by
    unfold extractedVideoId embedURL
    rw [data_mk, List.append_assoc, scanEmbedSkip (id ++ q) hall]
    rw [scanEmbedHit id q hne htw]
  refine ⟨⟨?_, ew⟩, ⟨?_, es⟩, ⟨?_, ee⟩⟩
  · unfold isValidYouTubeURL
    rw [hostWatchOk id q]
    simp [ew, hlen]
  · unfold isValidYouTubeURL
    rw [hostShortOk id q]
    simp [es, hlen]
  · unfold isValidYouTubeURL
    rw [hostEmbedOk id q]
    simp [ee, hlen]

/-- C2 witness: the three URL forms around the identifier of the
end-to-end scenario with a timestamp tail. -/
theorem c2_url_forms_witness :
    isValidYouTubeURL (watchURL "jNQXAC9IVRw".data "&t=3s".data) = true ∧
    extractedVideoId (shortURL "jNQXAC9IVRw".data "&t=3s".data) =
      some "jNQXAC9IVRw".data ∧
    isValidYouTubeURL (embedURL "jNQXAC9IVRw".data "&t=3s".data) = true := by
  have h := c2_url_forms "jNQXAC9IVRw".data "&t=3s".data (by decide) (by decide)
    (by decide) (Or.inr ⟨'&', "t=3s".data, by decide, by decide⟩)
  exact ⟨h.1.1, h.2.1.2, h.2.2.1⟩

theorem tryPatsAt_some (pats : List (List Char)) (s cap : List Char)
    (h : tryPatsAt pats s = some cap) :
    ∃ p rest, p ∈ pats ∧ matchLit p s = some rest ∧
      cap = rest.takeWhile notStop ∧ ¬(cap = []) := by
  induction pats with
  | nil => cases h
  | cons p ps ih =>
    simp only [tryPatsAt] at h
    cases hm : matchLit p s with
    | some rest =>
      rw [hm] at h
      by_cases hc : rest.takeWhile notStop = []
      · simp only [hc, if_pos rfl] at h
        obtain ⟨p2, rest2, hmem, hml, hcap, hne⟩ := ih h
        exact ⟨p2, rest2, List.mem_cons_of_mem p hmem, hml, hcap, hne⟩
      · simp only [if_neg hc] at h
        injection h with h2
        subst h2
        exact ⟨p, rest, List.mem_cons_self p ps, hm, rfl, hc⟩
    | none =>
      rw [hm] at h
      obtain ⟨p2, rest2, hmem, hml, hcap, hne⟩ := ih h
      exact ⟨p2, rest2, List.mem_cons_of_mem p hmem, hml, hcap, hne⟩

theorem tryPatsAt_not_none (s p rest : List Char)
    (hml : matchLit p s = some rest)
    (hne : ¬(rest.takeWhile notStop = [])) :
    ∀ pats : List (List Char), p ∈ pats → tryPatsAt pats s = none → False := by
  intro pats
  induction pats with
  | nil => intro hmem _; cases hmem
  | cons q qs ih =>
    intro hmem h
    simp only [tryPatsAt] at h
    cases hmq : matchLit q s with
    | some r2 =>
      rw [hmq] at h
      by_cases hc : r2.takeWhile notStop = []
      · simp only [hc, if_pos rfl] at h
        rcases List.mem_cons.mp hmem with rfl | hmem2
        · rw [hml] at hmq
          cases hmq
          exact hne hc
        · exact ih hmem2 h
      · simp only [if_neg hc] at h
        cases h
    | none =>
      rw [hmq] at h
      rcases List.mem_cons.mp hmem with rfl | hmem2
      · rw [hml] at hmq; cases hmq
      · exact ih hmem2 h

theorem findCapture_some (pats : List (List Char)) :
    ∀ s cap : List Char, findCapture pats s = some cap →
      ∃ pre p rest, p ∈ pats ∧ s = pre ++ p ++ rest ∧
        cap = rest.takeWhile notStop ∧ ¬(cap = []) ∧
        (∀ pre2 p2 rest2, p2 ∈ pats → s = pre2 ++ p2 ++ rest2 →
          ¬(rest2.takeWhile notStop = []) → pre.length ≤ pre2.length) := by
  intro s
  induction s with
  | nil => intro cap h; cases h
  | cons a t ih =>
    intro cap h
    simp only [findCapture] at h
    cases htry : tryPatsAt pats (a :: t) with
    | some cap2 =>
      rw [htry] at h
      cases h
      obtain ⟨p, rest, hmem, hml, hcap, hne⟩ := tryPatsAt_some pats (a :: t) cap htry
      refine ⟨[], p, rest, hmem, ?_, hcap, hne, ?_⟩
      · simpa using matchLit_eq_append p (a :: t) rest hml
      · intro pre2 p2 rest2 _ _ _; simp
    | none =>
      rw [htry] at h
      obtain ⟨pre, p, rest, hmem, hst, hcap, hne, hmin⟩ := ih cap h
      refine ⟨a :: pre, p, rest, hmem, by simp [hst], hcap, hne, ?_⟩
      intro pre2 p2 rest2 hmem2 heq2 hne2
      cases pre2 with
      | nil =>
        exfalso
        have hml2 : matchLit p2 (a :: t) = some rest2 := by
          have hsplit : a :: t = p2 ++ rest2 := by simpa using heq2
          rw [hsplit]
          exact matchLit_self_app p2 rest2
        exact tryPatsAt_not_none (a :: t) p2 rest2 hml2 hne2 pats hmem2 htry
      | cons b pre2t =>
        have ht2 : t = pre2t ++ p2 ++ rest2 := by
          have := heq2
          simp only [List.cons_append, List.append_assoc, List.cons.injEq] at this ⊢
          exact this.2
        have := hmin pre2t p2 rest2 hmem2 (by simpa [List.append_assoc] using ht2) hne2
        simp only [List.length_cons]
        omega

theorem extractedVideoId_decomp (url : String) (cap : List Char)
    (h : extractedVideoId url = some cap) :
    ∃ pats pre p post,
      (pats = [patWatch, patShort] ∨ pats = [patEmbed]) ∧ p ∈ pats ∧
      url.data = pre ++ p ++ (cap ++ post) ∧
      ¬(cap = []) ∧ cap.all notStop = true ∧
      (post = [] ∨ ∃ d ds, post = d :: ds ∧ isStopChar d = true) ∧
      (∀ pre2 p2 rest2, p2 ∈ pats → url.data = pre2 ++ p2 ++ rest2 →
        ¬(rest2.takeWhile notStop = []) → pre.length ≤ pre2.length) := by
  have main : ∀ pats2 : List (List Char),
      findCapture pats2 url.data = some cap →
      ∃ pre p post, p ∈ pats2 ∧
        url.data = pre ++ p ++ (cap ++ post) ∧
        ¬(cap = []) ∧ cap.all notStop = true ∧
        (post = [] ∨ ∃ d ds, post = d :: ds ∧ isStopChar d = true) ∧
        (∀ pre2 p2 rest2, p2 ∈ pats2 → url.data = pre2 ++ p2 ++ rest2 →
          ¬(rest2.takeWhile notStop = []) → pre.length ≤ pre2.length) := by
    intro pats2 hfc
    obtain ⟨pre, p, rest, hmem, hst, hcap, hne, hmin⟩ :=
      findCapture_some pats2 url.data cap hfc
    refine ⟨pre, p, rest.dropWhile notStop, hmem, ?_, hne, ?_, ?_, hmin⟩
    · rw [hst, hcap]
      rw [List.takeWhile_append_dropWhile]
    · rw [hcap]
      exact all_takeWhile_self notStop rest
    · cases hdw : rest.dropWhile notStop with
      | nil => exact Or.inl rfl
      | cons d ds =>
        refine Or.inr ⟨d, ds, rfl, ?_⟩
        have := dropWhile_head_false notStop rest d ds hdw
        simpa [notStop] using this
  unfold extractedVideoId at h
  cases hfc : findCapture [patWatch, patShort] url.data with
  | some cap2 =>
    rw [hfc] at h
    cases h
    obtain ⟨pre, p, post, hmem, hrest⟩ := main [patWatch, patShort] hfc
    exact ⟨[patWatch, patShort], pre, p, post, Or.inl rfl, hmem, hrest⟩
  | none =>
    rw [hfc] at h
    obtain ⟨pre, p, post, hmem, hrest⟩ := main [patEmbed] h
    exact ⟨[patEmbed], pre, p, post, Or.inr rfl, hmem, hrest⟩

theorem isValid_characterization (url : String) :
    isValidYouTubeURL url = true ↔
      (recognizedHostB url = true ∧
        ∃ cap, extractedVideoId url = some cap ∧ cap.length = 11) := by
  unfold isValidYouTubeURL
  by_cases hr : recognizedHostB url = true
  · rw [if_pos hr]
    simp only [hr, eq_self_iff_true, true_and]
    cases he : extractedVideoId url with
    | none => simp
    | some cap =>
      constructor
      · intro h
        exact ⟨cap, rfl, by simpa using h⟩
      · rintro ⟨cap2, hc2, hlen⟩
        injection hc2 with h3
        subst h3
        simpa using hlen
  · rw [if_neg hr]
    simp [hr]

/-- C3 counterexample: a URL on a foreign host whose text contains the
watch pattern followed by an 11 character run; the captured run has
length exactly 11, yet the Resolver rejects the string, so success is
not equivalent to the captured run having length 11. -/
theorem c3_counterexample :
    extractedVideoId "https://evil.com/youtube.com/watch?v=abcdefghijk" =
      some "abcdefghijk".data ∧
    ("abcdefghijk".data).length = 11 ∧
    isValidYouTubeURL "https://evil.com/youtube.com/watch?v=abcdefghijk" = false := by
  decide

/-- C3 amended: the Resolver captures the first contiguous run of
characters immediately following the matched URL pattern, the run
containing no terminator character (ampersand, newline, question mark
or hash) and ending at a terminator or the end of the string; it
succeeds if and only if the host is recognized and the captured run
has length exactly 11. -/
theorem c3_capture_rule (url : String) :
    (isValidYouTubeURL url = true ↔
      (recognizedHostB url = true ∧
        ∃ cap, extractedVideoId url = some cap ∧ cap.length = 11)) ∧
    (∀ cap, extractedVideoId url = some cap →
      ∃ pats pre p post,
        (pats = [patWatch, patShort] ∨ pats = [patEmbed]) ∧ p ∈ pats ∧
        url.data = pre ++ p ++ (cap ++ post) ∧
        ¬(cap = []) ∧ cap.all notStop = true ∧
        (post = [] ∨ ∃ d ds, post = d :: ds ∧ isStopChar d = true) ∧
        (∀ pre2 p2 rest2, p2 ∈ pats → url.data = pre2 ++ p2 ++ rest2 →
          ¬(rest2.takeWhile notStop = []) → pre.length ≤ pre2.length)) :=
  ⟨isValid_characterization url, fun cap h => extractedVideoId_decomp url cap h⟩

/-- C3 witness: the amended characterization applied to a concrete
accepted short-link URL. -/
theorem c3_capture_rule_witness :
    isValidYouTubeURL "https://youtu.be/dQw4w9WgXcQ" = true :=
  ((c3_capture_rule "https://youtu.be/dQw4w9WgXcQ").1).mpr
    ⟨by decide, "dQw4w9WgXcQ".data, by decide, by decide⟩

/-- C4: every input string whose host is not recognized (the URL does
not parse, or its hostname contains none of the three recognized
substrings) is rejected by the validator. -/
theorem c4_unrecognized_host (url : String)
    (h : recognizedHostB url = false) : isValidYouTubeURL url = false := by
  simp [isValidYouTubeURL, h]

/-- C4 witness: a URL on a foreign host is rejected even though an
11 character identifier follows a recognizable pattern in its text. -/
theorem c4_unrecognized_host_witness :
    recognizedHostB "https://vimeo.com/youtube.com/watch?v=abcdefghijk" = false ∧
    extractedVideoId "https://vimeo.com/youtube.com/watch?v=abcdefghijk" =
      some "abcdefghijk".data ∧
    isValidYouTubeURL "https://vimeo.com/youtube.com/watch?v=abcdefghijk" = false :=
  ⟨by decide, by decide,
    c4_unrecognized_host "https://vimeo.com/youtube.com/watch?v=abcdefghijk" (by decide)⟩

/-- C5 counterexample: an accepted short-link URL whose captured
identifier contains a dot, a character outside the platform identifier
alphabet; the validator accepts it regardless, so the alphabet
invariant does not hold for every produced identifier. -/
theorem c5_alphabet_counterexample :
    isValidYouTubeURL "https://youtu.be/ab.defghijk" = true ∧
    extractedVideoId "https://youtu.be/ab.defghijk" = some "ab.defghijk".data ∧
    ("ab.defghijk".data).all isIdAlphabet = false := by
  decide

/-- C5 amended: every identifier produced by an accepted URL has
exactly 11 characters, none of which is a terminator character
(ampersand, newline, question mark or hash); membership in the
platform identifier alphabet is not enforced by the code. -/
theorem c5_produced_id (url : String) (cap : List Char)
    (hv : isValidYouTubeURL url = true)
    (he : extractedVideoId url = some cap) :
    cap.length = 11 ∧ cap.all notStop = true := by
  obtain ⟨_, cap2, he2, hlen⟩ := (isValid_characterization url).mp hv
  rw [he] at he2
  injection he2 with h3
  subst h3
  refine ⟨hlen, ?_⟩
  obtain ⟨pats, pre, p, post, _, _, _, _, hall, _, _⟩ :=
    extractedVideoId_decomp url cap he
  exact hall

/-- C5 witness: the amended invariant applied to a concrete accepted
URL whose identifier exercises the full identifier alphabet. -/
theorem c5_produced_id_witness :
    ("xyzXYZ01_-9".data).length = 11 ∧ ("xyzXYZ01_-9".data).all notStop = true :=
  c5_produced_id "https://youtu.be/xyzXYZ01_-9" "xyzXYZ01_-9".data
    (by decide) (by decide)

theorem network_error_ne_empty (msg : String) :
    ¬("Network error: " ++ msg = "") := by
  intro hs
  have h0 : ("Network error: " ++ msg).length = 0 := by rw [hs]; rfl
  rw [String.length_append] at h0
  rw [show ("Network error: ").length = 15 from rfl] at h0
  omega

/-- C10: for every fetch outcome, fetchTranscript returns a
TranscriptResponse value (the embedding is a total function); the
2xx-with-valid-JSON outcome returns the decoded body unchanged, and
every other outcome returns success false together with a nonempty
error string. -/
theorem c10_fetch_wrapper (o : FetchOutcome) :
    (∀ j, o = .response true (.ok j) → fetchTranscript o = j) ∧
    ((∀ j, ¬(o = .response true (.ok j))) →
      (fetchTranscript o).success = false ∧
      ∃ s, (fetchTranscript o).error = some s ∧ ¬(s = "")) := by
  constructor
  · rintro j rfl; rfl
  · intro hnot
    cases o with
    | rejected msg =>
      exact ⟨rfl, "Network error: " ++ msg, rfl, network_error_ne_empty msg⟩
    | response ok body =>
      cases ok with
      | true =>
        cases body with
        | error msg =>
          exact ⟨rfl, "Network error: " ++ msg, rfl, network_error_ne_empty msg⟩
        | ok j => exact absurd rfl (hnot j)
      | false =>
        cases body with
        | error msg =>
          exact ⟨rfl, "Network error: " ++ msg, rfl, network_error_ne_empty msg⟩
        | ok j =>
          refine ⟨rfl, ?_⟩
          cases herr : j.error with
          | none =>
            exact ⟨"Failed to fetch transcript",
              by simp [fetchTranscript, herr], by decide⟩
          | some s =>
            by_cases hs : s = ""
            · exact ⟨"Failed to fetch transcript",
                by simp [fetchTranscript, herr, hs], by decide⟩
            · exact ⟨s, by simp [fetchTranscript, herr, hs], hs⟩

/-- C10 witness: the failure-path half applied to a non-2xx response
whose JSON error field is the empty string, exercising the fallback
message. -/
theorem c10_fetch_wrapper_witness :
    (fetchTranscript
        (.response false (.ok ⟨false, none, none, none, some ""⟩))).success = false ∧
    ∃ s, (fetchTranscript
        (.response false (.ok ⟨false, none, none, none, some ""⟩))).error =
          some s ∧ ¬(s = "") :=
  (c10_fetch_wrapper (.response false (.ok ⟨false, none, none, none, some ""⟩))).2
    (by intro j h; injection h with h1 h2; cases h1)

theorem normalizeFrom_map_text :
    ∀ (evs : List RawCaptionEvent) (n : Nat),
      (normalizeFrom evs n).map (fun s => s.text) =
        (evs.filter eventHasText).map eventText := by
  intro evs
  induction evs with
  | nil => intro n; rfl
  | cons e rest ih =>
    intro n
    cases h : eventHasText e with
    | true => simp [normalizeFrom, h, List.filter_cons, ih]
    | false => simp [normalizeFrom, h, List.filter_cons, ih]

theorem normalizeFrom_map_id :
    ∀ (evs : List RawCaptionEvent) (n : Nat),
      (normalizeFrom evs n).map (fun s => s.id) =
        List.range' n (normalizeFrom evs n).length := by
  intro evs
  induction evs with
  | nil => intro n; rfl
  | cons e rest ih =>
    intro n
    cases h : eventHasText e with
    | true => simp [normalizeFrom, h, ih, List.range'_succ]
    | false => simp [normalizeFrom, h, ih]

theorem normalizeEvents_ids (evs : List RawCaptionEvent) :
    (normalizeEvents evs).map (fun s => s.id) =
      List.range (normalizeEvents evs).length := by
  rw [normalizeEvents, normalizeFrom_map_id evs 0, List.range_eq_range']

/-- C1: the Response Normalizer emits exactly the events that have a
nonempty text fragment (in delivery order, with fragments joined), its
ids are dense from 0 over the emitted segments only, and the text is
the emitted segment texts joined with single spaces; in particular the
end-to-end scenario with the three event payload Hello, empty, world
yields text Hello world and exactly the two segments with ids 0
and 1. -/
theorem c1_normalizer :
    (∀ evs : List RawCaptionEvent,
      (normalizeEvents evs).map (fun s => s.text) =
        (evs.filter eventHasText).map eventText ∧
      (normalizeEvents evs).map (fun s => s.id) =
        List.range (normalizeEvents evs).length ∧
      ∀ lang, (normalizeResult evs lang).text =
        String.intercalate " " ((normalizeEvents evs).map (fun s => s.text))) ∧
    extract simCollab "https://www.youtube.com/watch?v=jNQXAC9IVRw&t=3s"
        none none =
      .ok ⟨"Hello world",
        [⟨0, "Hello", none, none⟩, ⟨1, "world", none, none⟩], some "en"⟩ := by
  constructor
  · intro evs
    exact ⟨normalizeFrom_map_text evs 0, normalizeEvents_ids evs, fun lang => rfl⟩
  · rfl

theorem extractT_happy (cfg : Collab) (url : String) (pref : Option String)
    (vid : List Char) (s : Nat) (body key ps : List Char) (m : Nat)
    (ds : List Nat)
    (hres : resolveVideoId url = some vid)
    (hpage : retryRun cfg.pageTransport none cfg.baseDelay 0 3 =
      .done (.ok s body) m ds)
    (h2xx : 200 ≤ s ∧ s < 300)
    (hscrape : scrapePage body = .ok (key, ps)) :
    extractT cfg url pref none =
      (match fallbackRun (cfg.endpoint key ps) none (candidates pref) m with
        | (.cancelled, ts, _) => (.error ⟨.cancelled, "cancelled"⟩, ⟨m, ds, ts⟩)
        | (.ok evs lang, ts, _) => (.ok (normalizeResult evs lang), ⟨m, ds, ts⟩)
        | (.fail f, ts, _) => (.error f, ⟨m, ds, ts⟩)) := by
  unfold extractT
  rw [hres, hpage]
  dsimp only
  rw [if_pos h2xx, hscrape]

/-- C6: with an endpoint that reports language-unavailable for de and
de-DE and succeeds for en, an extract call with no preferred language
returns the result for language en; and for every caller supplied
preferred language, the candidate list is that language followed by
the unchanged default chain, and when it is unavailable the controller
continues exactly as the default run would. -/
theorem c6_language_fallback (e : Option String → EndpointOutcome)
    (evs : List RawCaptionEvent)
    (hde : e (some "de") = .languageUnavailable)
    (hdeDE : e (some "de-DE") = .languageUnavailable)
    (hen : e (some "en") = .success evs) :
    extract ⟨fun _ => .ok 200 simHtml, fun _ _ lang => e lang, 500⟩
        "https://www.youtube.com/watch?v=jNQXAC9IVRw" none none =
      .ok (normalizeResult evs (some "en")) ∧
    (fallbackRun e none (candidates none) 0).1 = .ok evs (some "en") ∧
    (fallbackRun e none (candidates none) 0).2.1 =
      [some "de", some "de-DE", some "en"] ∧
    (∀ l : String, candidates (some l) = l :: candidates none) ∧
    (∀ (l : String) (e2 : Option String → EndpointOutcome) (ops : Nat),
      e2 (some l) = .languageUnavailable →
      fallbackRun e2 none (candidates (some l)) ops =
        ((fallbackRun e2 none (candidates none) (ops + 1)).1,
          some l :: (fallbackRun e2 none (candidates none) (ops + 1)).2.1,
          (fallbackRun e2 none (candidates none) (ops + 1)).2.2)) := by
  have hfb : ∀ ops : Nat, fallbackRun e none (candidates none) ops =
      (.ok evs (some "en"), [some "de", some "de-DE", some "en"], ops + 3) := by
    intro ops
    simp [fallbackRun, candidates, defaultChain, cancelFires, hde, hdeDE, hen]
  refine ⟨?_, ?_, ?_, fun l => rfl, ?_⟩
  · have hX := extractT_happy
      ⟨fun _ => .ok 200 simHtml, fun _ _ lang => e lang, 500⟩
      "https://www.youtube.com/watch?v=jNQXAC9IVRw" none
      "jNQXAC9IVRw".data 200 simHtml "k123".data "p456".data 1 []
      (by decide) rfl (by decide) rfl
    show (extractT _ _ _ _).1 = _
    rw [hX]
    have he : ((⟨fun _ => .ok 200 simHtml, fun _ _ lang => e lang, 500⟩ :
        Collab).endpoint "k123".data "p456".data) = e := rfl
    rw [he, hfb 1]
  · rw [hfb 0]
  · rw [hfb 0]
  · intro l e2 ops h
    simp [fallbackRun, candidates, cancelFires, h]

/-- C6 witness: the fallback scenario with the simulated endpoint. -/
theorem c6_language_fallback_witness :
    extract ⟨fun _ => .ok 200 simHtml,
        fun _ _ lang => simEndpoint [] [] lang, 500⟩
      "https://www.youtube.com/watch?v=jNQXAC9IVRw" none none =
      .ok (normalizeResult
        [⟨["Hello"], none, none⟩, ⟨[""], none, none⟩, ⟨["world"], none, none⟩]
        (some "en")) :=
  (c6_language_fallback (fun lang => simEndpoint [] [] lang)
    [⟨["Hello"], none, none⟩, ⟨[""], none, none⟩, ⟨["world"], none, none⟩]
    rfl rfl rfl).1

theorem retryRun3 (t : Nat → AttemptResult) (c : Option Nat) (base made : Nat) :
    retryRun t c base made 3 =
      if cancelFires c made then .cancelled made
      else
        if retriableB (t made) = true ∧ (2 : Nat) ≠ 0 then
          match retryRun t c base (made + 1) 2 with
          | .cancelled m => .cancelled m
          | .done r2 m2 ds => .done r2 m2 (base * 2 ^ made :: ds)
        else .done (t made) (made + 1) [] := rfl

theorem retryRun2 (t : Nat → AttemptResult) (c : Option Nat) (base made : Nat) :
    retryRun t c base made 2 =
      if cancelFires c made then .cancelled made
      else
        if retriableB (t made) = true ∧ (1 : Nat) ≠ 0 then
          match retryRun t c base (made + 1) 1 with
          | .cancelled m => .cancelled m
          | .done r2 m2 ds => .done r2 m2 (base * 2 ^ made :: ds)
        else .done (t made) (made + 1) [] := rfl

theorem retryRun1 (t : Nat → AttemptResult) (c : Option Nat) (base made : Nat) :
    retryRun t c base made 1 =
      if cancelFires c made then .cancelled made
      else .done (t made) (made + 1) [] := by
  rw [show retryRun t c base made 1 =
      (if cancelFires c made then .cancelled made
      else
        if retriableB (t made) = true ∧ (0 : Nat) ≠ 0 then
          match retryRun t c base (made + 1) 0 with
          | .cancelled m => .cancelled m
          | .done r2 m2 ds => .done r2 m2 (base * 2 ^ made :: ds)
        else .done (t made) (made + 1) []) from rfl]
  simp

/-- C7: the Transport Session makes at most 3 attempts per request, a
retry happens only after a retriable attempt result (connection error,
read timeout, HTTP 5xx or 429) and every non-final attempt was
retriable, the backoff delays double exponentially from the base
delay, and the loop stops early only on a non-retriable result; in
particular with a transport that fails twice with 503 and succeeds on
the third attempt, extract succeeds, exactly 3 attempts are made and
the delays are the doubling schedule. -/
theorem c7_retry_policy :
    (∀ (t : Nat → AttemptResult) (base : Nat) (r : AttemptResult) (m : Nat)
        (ds : List Nat),
      retryRun t none base 0 3 = .done r m ds →
      1 ≤ m ∧ m ≤ 3 ∧ r = t (m - 1) ∧
        ds = (List.range (m - 1)).map (fun i => base * 2 ^ i) ∧
        (∀ i, i + 1 < m → retriableB (t i) = true) ∧
        (m < 3 → retriableB (t (m - 1)) = false)) ∧
    extract sim503Collab "https://www.youtube.com/watch?v=jNQXAC9IVRw"
        none none =
      .ok (normalizeResult
        [⟨["Hello"], none, none⟩, ⟨[""], none, none⟩, ⟨["world"], none, none⟩]
        (some "en")) ∧
    (extractT sim503Collab "https://www.youtube.com/watch?v=jNQXAC9IVRw" none
        none).2.pageAttempts = 3 ∧
    (extractT sim503Collab "https://www.youtube.com/watch?v=jNQXAC9IVRw" none
        none).2.pageDelays = [500, 1000] := by
  refine ⟨?_, rfl, rfl, rfl⟩
  intro t base r m ds h
  rw [retryRun3] at h
  simp only [cancelFires, Bool.false_eq_true, if_false, ne_eq,
    OfNat.ofNat_ne_zero, not_false_eq_true, and_true] at h
  by_cases h0 : retriableB (t 0) = true
  · rw [if_pos h0] at h
    rw [retryRun2] at h
    simp only [cancelFires, Bool.false_eq_true, if_false, ne_eq,
      one_ne_zero, not_false_eq_true, and_true] at h
    by_cases h1 : retriableB (t (0 + 1)) = true
    · rw [if_pos h1] at h
      rw [retryRun1] at h
      simp only [cancelFires, Bool.false_eq_true, if_false] at h
      rw [RetryResult.done.injEq] at h
      obtain ⟨hr, hm, hds⟩ := h
      subst hr; subst hm; subst hds
      refine ⟨by omega, by omega, rfl, ?_, ?_, by omega⟩
      · rw [show List.range (0 + 1 + 1 + 1 - 1) = [0, 1] from by decide]
        simp
      · intro i hi
        rcases i with _ | _ | i
        · exact h0
        · exact h1
        · omega
    · rw [if_neg h1] at h
      rw [RetryResult.done.injEq] at h
      obtain ⟨hr, hm, hds⟩ := h
      subst hr; subst hm; subst hds
      refine ⟨by omega, by omega, rfl, ?_, ?_, ?_⟩
      · rw [show List.range (0 + 1 + 1 - 1) = [0] from by decide]
        simp
      · intro i hi
        rcases i with _ | i
        · exact h0
        · omega
      · intro _
        simpa using h1
  · rw [if_neg h0] at h
    rw [RetryResult.done.injEq] at h
    obtain ⟨hr, hm, hds⟩ := h
    subst hr; subst hm; subst hds
    refine ⟨by omega, by omega, rfl, ?_, ?_, ?_⟩
    · rw [show List.range (0 + 1 - 1) = [] from by decide]
      simp
    · intro i hi
      omega
    · intro _
      simpa using h0

/-- C7 witness: the general retry characterization applied to the
concrete 503 transport. -/
theorem c7_retry_policy_witness :
    (1 : Nat) ≤ 3 ∧ (3 : Nat) ≤ 3 ∧
    AttemptResult.ok 200 simHtml = sim503 (3 - 1) ∧
    [500 * 2 ^ 0, 500 * 2 ^ 1] =
      (List.range (3 - 1)).map (fun i => 500 * 2 ^ i) ∧
    (∀ i, i + 1 < 3 → retriableB (sim503 i) = true) ∧
    ((3 : Nat) < 3 → retriableB (sim503 (3 - 1)) = false) :=
  c7_retry_policy.1 sim503 500 (.ok 200 simHtml) 3 [500 * 2 ^ 0, 500 * 2 ^ 1]
    rfl

/-- C8: every extract call returns either a failure value carrying one
kind and a message, or a full result whose text is the segment texts
joined with single spaces and whose segment ids are dense from 0; no
partial data accompanies a failure and no exception escapes (the
embedding is a total function). -/
theorem c8_outcome (cfg : Collab) (url : String) (pref : Option String)
    (c : Option Nat) :
    (∃ f : ExtractionFailure, extract cfg url pref c = .error f) ∨
    (∃ r : ExtractorResult, extract cfg url pref c = .ok r ∧
      r.text = transcriptText r.segments ∧
      r.segments.map (fun s => s.id) = List.range r.segments.length) := by
  unfold extract extractT
  cases hres : resolveVideoId url with
  | none => exact Or.inl ⟨_, rfl⟩
  | some vid =>
    cases hrr : retryRun cfg.pageTransport c cfg.baseDelay 0 3 with
    | cancelled m => exact Or.inl ⟨_, rfl⟩
    | done r m ds =>
      cases r with
      | connError => exact Or.inl ⟨_, rfl⟩
      | readTimeout => exact Or.inl ⟨_, rfl⟩
      | ok s body =>
        dsimp only
        by_cases h2xx : 200 ≤ s ∧ s < 300
        · rw [if_pos h2xx]
          cases hsc : scrapePage body with
          | error f => exact Or.inl ⟨f, rfl⟩
          | ok kp =>
            obtain ⟨key, ps⟩ := kp
            dsimp only
            rcases hfb : fallbackRun (cfg.endpoint key ps) c (candidates pref) m
              with ⟨fb, ts, ops2⟩
            cases fb with
            | cancelled => exact Or.inl ⟨_, rfl⟩
            | fail f => exact Or.inl ⟨f, rfl⟩
            | ok evs lang =>
              refine Or.inr ⟨normalizeResult evs lang, rfl, rfl, ?_⟩
              exact normalizeEvents_ids evs
        · rw [if_neg h2xx]
          exact Or.inl ⟨_, rfl⟩

theorem retryRun_done_ge (t : Nat → AttemptResult) (c : Option Nat)
    (base : Nat) :
    ∀ (fuel made : Nat) (r : AttemptResult) (m : Nat) (ds : List Nat),
      retryRun t c base made fuel = .done r m ds → made ≤ m := by
  intro fuel
  induction fuel with
  | zero =>
    intro made r m ds h
    injection h with h1 h2 h3
    omega
  | succ fuel ih =>
    intro made r m ds h
    simp only [retryRun] at h
    by_cases hc : cancelFires c made = true
    · rw [if_pos hc] at h
      cases h
    · rw [if_neg hc] at h
      by_cases hr : retriableB (t made) = true ∧ fuel ≠ 0
      · rw [if_pos hr] at h
        cases hrec : retryRun t c base (made + 1) fuel with
        | cancelled m2 => rw [hrec] at h; cases h
        | done r2 m2 ds2 =>
          rw [hrec] at h
          injection h with h1 h2 h3
          have := ih (made + 1) r2 m2 ds2 hrec
          omega
      · rw [if_neg hr] at h
        injection h with h1 h2 h3
        omega

theorem retryRun_cancel_sim (t : Nat → AttemptResult) (base k : Nat) :
    ∀ (fuel made : Nat) (r : AttemptResult) (m : Nat) (ds : List Nat),
      retryRun t none base made fuel = .done r m ds →
      made ≤ k →
      retryRun t (some k) base made fuel =
        (if k < m then .cancelled k else .done r m ds) := by
  intro fuel
  induction fuel with
  | zero =>
    intro made r m ds h hk
    injection h with h1 h2 h3
    subst h1; subst h2; subst h3
    rw [if_neg (by omega)]
    rfl
  | succ fuel ih =>
    intro made r m ds h hk
    simp only [retryRun] at h ⊢
    simp only [cancelFires, Bool.false_eq_true, if_false] at h
    by_cases hkm : k = made
    · subst hkm
      have hmlt : k < m := by
        by_cases hr : retriableB (t k) = true ∧ fuel ≠ 0
        · rw [if_pos hr] at h
          cases hrec : retryRun t none base (k + 1) fuel with
          | cancelled m2 => rw [hrec] at h; cases h
          | done r2 m2 ds2 =>
            rw [hrec] at h
            injection h with h1 h2 h3
            have := retryRun_done_ge t none base fuel (k + 1) r2 m2 ds2 hrec
            omega
        · rw [if_neg hr] at h
          injection h with h1 h2 h3
          omega
      rw [if_pos hmlt]
      have hfire : cancelFires (some k) k = true := by
        simp [cancelFires]
      rw [if_pos hfire]
    · have hlt : made < k := by omega
      have hnofire : ¬(cancelFires (some k) made = true) := by
        simp [cancelFires]
        omega
      rw [if_neg hnofire]
      by_cases hr : retriableB (t made) = true ∧ fuel ≠ 0
      · rw [if_pos hr] at h ⊢
        cases hrec : retryRun t none base (made + 1) fuel with
        | cancelled m2 => rw [hrec] at h; cases h
        | done r2 m2 ds2 =>
          rw [hrec] at h
          have hsim := ih (made + 1) r2 m2 ds2 hrec (by omega)
          rw [hsim]
          injection h with h1 h2 h3
          subst h1; subst h2; subst h3
          by_cases hklt : k < m2
          · rw [if_pos hklt, if_pos hklt]
          · rw [if_neg hklt, if_neg hklt]
      · rw [if_neg hr] at h ⊢
        injection h with h1 h2 h3
        subst h1; subst h2; subst h3
        rw [if_neg (by omega)]

theorem fallbackRun_cancel (e : Option String → EndpointOutcome)
    (c : Option Nat) (cands : List String) (ops : Nat)
    (h : cancelFires c ops = true) :
    fallbackRun e c cands ops = (.cancelled, [], ops) := by
  cases cands with
  | nil => simp [fallbackRun, h]
  | cons l ls => simp [fallbackRun, h]

/-- C9: when the cancellation signal fires no later than the first
endpoint network operation of an execution whose page phase would
succeed (so before the endpoint call completes), extract returns the
distinct cancelled failure, issues no endpoint call at all, and the
page phase performs at most as many attempts as the signal index; no
result data is returned. -/
theorem c9_cancellation (cfg : Collab) (url : String) (pref : Option String)
    (k : Nat) (vid : List Char) (s : Nat) (body : List Char) (m : Nat)
    (ds : List Nat) (key ps : List Char)
    (hres : resolveVideoId url = some vid)
    (hpage : retryRun cfg.pageTransport none cfg.baseDelay 0 3 =
      .done (.ok s body) m ds)
    (h2xx : 200 ≤ s ∧ s < 300)
    (hscrape : scrapePage body = .ok (key, ps))
    (hk : k ≤ m) :
    extract cfg url pref (some k) = .error ⟨.cancelled, "cancelled"⟩ ∧
    (extractT cfg url pref (some k)).2.endpointLangs = [] ∧
    (extractT cfg url pref (some k)).2.pageAttempts ≤ k := by
  have hsim := retryRun_cancel_sim cfg.pageTransport cfg.baseDelay k 3 0
    (.ok s body) m ds hpage (Nat.zero_le k)
  by_cases hkm : k < m
  · rw [if_pos hkm] at hsim
    unfold extract extractT
    rw [hres, hsim]
    exact ⟨rfl, rfl, Nat.le_refl k⟩
  · rw [if_neg hkm] at hsim
    have hkm2 : k = m := by omega
    subst hkm2
    unfold extract extractT
    rw [hres, hsim]
    dsimp only
    rw [if_pos h2xx, hscrape]
    dsimp only
    rw [fallbackRun_cancel (cfg.endpoint key ps) (some k) (candidates pref) k
      (by simp [cancelFires])]
    exact ⟨rfl, rfl, Nat.le_refl k⟩

/-- C9 witness: cancellation fired at the operation index of the first
endpoint call in the end-to-end scenario. -/
theorem c9_cancellation_witness :
    extract simCollab "https://www.youtube.com/watch?v=jNQXAC9IVRw" none
        (some 1) = .error ⟨.cancelled, "cancelled"⟩ ∧
    (extractT simCollab "https://www.youtube.com/watch?v=jNQXAC9IVRw" none
        (some 1)).2.endpointLangs = [] ∧
    (extractT simCollab "https://www.youtube.com/watch?v=jNQXAC9IVRw" none
        (some 1)).2.pageAttempts ≤ 1 :=
  c9_cancellation simCollab "https://www.youtube.com/watch?v=jNQXAC9IVRw" none 1
    "jNQXAC9IVRw".data 200 simHtml 1 [] "k123".data "p456".data
    (by decide) rfl (by decide) rfl (by decide)

example : isValidYouTubeURL "https://www.youtube.com/watch?v=jNQXAC9IVRw&t=3s" = true := by decide

example : isValidYouTubeURL "https://youtu.be/jNQXAC9IVRw" = true := by decide

example : isValidYouTubeURL "https://www.youtube.com/embed/jNQXAC9IVRw" = true := by decide

example : isValidYouTubeURL "https://www.youtube.com/watch?v=short" = false := by decide

example : isValidYouTubeURL "not a url" = false := by decide

example : extractedVideoId "https://youtu.be/jNQXAC9IVRw" = some "jNQXAC9IVRw".data := by decide
